import Mathlib

/-
Verification of the stereo-frame core of Kimera-VIO (frontend/StereoFrame.cpp).

The embedding models pixel coordinates and depths as exact rationals.  The one
place where IEEE-754 special values matter is the division fx*b / disparity in
getDepthFromRectifiedMatches, where disparity may be exactly zero: to stay
faithful to the source we compute that division in a small extended-value type
DVal with signed infinities and a not-a-number element, with IEEE comparison
semantics (comparisons against NaN are false).  Everywhere else values are
finite and arithmetic is exact.

In-place mutation of the keypoint containers is modelled by returning the
updated containers; glog CHECK failures (fatal aborts) and std::vector::at
range exceptions are modelled by Option, with none standing for abnormal
termination.
-/

namespace VIO

/-- Closed status tag set for a right-image rectified keypoint
(KeypointStatus in the source). -/
inductive KeypointStatus where
  | VALID
  | NO_LEFT_RECT
  | NO_RIGHT_RECT
  | NO_DEPTH
  | FAILED_ARUN
deriving DecidableEq, Repr, Inhabited

/-- A 2D pixel coordinate (cv::KeyPoint position, KeypointCV in the source). -/
structure KeypointCV where
  x : ℚ
  y : ℚ
deriving DecidableEq, Repr, Inhabited

/-- StatusKeypointCV: a rectified keypoint together with its status
(std::pair of KeypointStatus and KeypointCV in the source). -/
abbrev StatusKeypointCV := KeypointStatus × KeypointCV

/-- A 3D point (gtsam::Vector3 entry of keypoints_3d_); the z component is the
depth along the optical axis. -/
structure Point3 where
  x : ℚ
  y : ℚ
  z : ℚ
deriving DecidableEq, Repr, Inhabited

/-- The fields of the monocular Frame that the stereo core reads or writes. -/
structure Frame where
  keypoints : List KeypointCV
  scores : List ℚ
  landmarks : List Int
  isKeyframe : Bool
deriving DecidableEq, Repr, Inhabited

/-- Depth acceptance range of StereoMatchingParams. -/
structure StereoMatchingParams where
  min_point_dist : ℚ
  max_point_dist : ℚ
deriving DecidableEq, Repr, Inhabited

/-- The StereoFrame record: the parallel per-keypoint containers plus the two
monocular frames and the keyframe / rectification flags. -/
structure StereoFrame where
  left_frame : Frame
  right_frame : Frame
  keypoints_3d : List Point3
  left_keypoints_rectified : List StatusKeypointCV
  right_keypoints_rectified : List StatusKeypointCV
  is_keyframe : Bool
  is_rectified : Bool
deriving DecidableEq, Repr, Inhabited

/-- Extended double value: a finite rational, a signed infinity, or
not-a-number.  Only the division fx*b / disparity can produce a non-finite
value in the modelled code. -/
inductive DVal where
  | fin (q : ℚ)
  | posInf
  | negInf
  | nan
deriving DecidableEq, Repr, Inhabited

/-- IEEE-754 division of a finite value by a finite value: ordinary division
when the divisor is nonzero, a signed infinity for x/0 with x nonzero, and
NaN for 0/0. -/
def ddiv (a b : ℚ) : DVal :=
  if b ≠ 0 then DVal.fin (a / b)
  else if 0 < a then DVal.posInf
  else if a < 0 then DVal.negInf
  else DVal.nan

/-- IEEE comparison: is the extended value strictly below the finite bound c?
Any comparison with NaN is false. -/
def dltQ : DVal → ℚ → Bool
  | DVal.fin q, c => decide (q < c)
  | DVal.posInf, _ => false
  | DVal.negInf, _ => true
  | DVal.nan, _ => false

/-- IEEE comparison: is the extended value strictly above the finite bound c?
Any comparison with NaN is false. -/
def dgtQ : DVal → ℚ → Bool
  | DVal.fin q, c => decide (c < q)
  | DVal.posInf, _ => true
  | DVal.negInf, _ => false
  | DVal.nan, _ => false

/-- One iteration of the loop of StereoFrame::getDepthFromRectifiedMatches:
given the left and right rectified keypoints at one index, produce the emitted
depth and the (possibly updated) left and right entries.  The source never
assigns to the left entry, so the left component is returned unchanged by
every branch, mirroring the absence of any write. -/
def depthStep (fx_b min_d max_d : ℚ) (lk rk : StatusKeypointCV) :
    DVal × StatusKeypointCV × StatusKeypointCV :=
  if lk.1 = KeypointStatus.VALID ∧ rk.1 = KeypointStatus.VALID then
    let disparity := lk.2.x - rk.2.x
    if 0 ≤ disparity then
      let depth := ddiv fx_b disparity
      if dltQ depth min_d || dgtQ depth max_d then
        (DVal.fin 0, lk, (KeypointStatus.NO_DEPTH, rk.2))
      else
        (depth, lk, rk)
    else
      (DVal.fin 0, lk, (KeypointStatus.NO_DEPTH, rk.2))
  else
    if lk.1 ≠ KeypointStatus.VALID then
      (DVal.fin 0, lk, (lk.1, rk.2))
    else
      (DVal.fin 0, lk, rk)

/-- All per-index results of the loop of getDepthFromRectifiedMatches. -/
def depthResults (left right : List StatusKeypointCV) (fx baseline : ℚ)
    (p : StereoMatchingParams) :
    List (DVal × StatusKeypointCV × StatusKeypointCV) :=
  (left.zip right).map
    (fun lr => depthStep (fx * baseline) p.min_point_dist p.max_point_dist lr.1 lr.2)

/-- The vector of depths returned by getDepthFromRectifiedMatches. -/
def getDepths (left right : List StatusKeypointCV) (fx baseline : ℚ)
    (p : StereoMatchingParams) : List DVal :=
  (depthResults left right fx baseline p).map (fun r => r.1)

/-- The left rectified keypoints after getDepthFromRectifiedMatches ran. -/
def leftAfterDepth (left right : List StatusKeypointCV) (fx baseline : ℚ)
    (p : StereoMatchingParams) : List StatusKeypointCV :=
  (depthResults left right fx baseline p).map (fun r => r.2.1)

/-- The right rectified keypoints after getDepthFromRectifiedMatches ran
(the in-place mutation of right_keypoints_rectified). -/
def rightAfterDepth (left right : List StatusKeypointCV) (fx baseline : ℚ)
    (p : StereoMatchingParams) : List StatusKeypointCV :=
  (depthResults left right fx baseline p).map (fun r => r.2.2)

/-- StereoFrame::getDepthFromRectifiedMatches: returns the depth vector and
the two keypoint containers as left after the call (the source mutates the
right container in place and returns the depths). -/
def getDepthFromRectifiedMatches (left right : List StatusKeypointCV)
    (fx baseline : ℚ) (p : StereoMatchingParams) :
    List DVal × List StatusKeypointCV × List StatusKeypointCV :=
  (getDepths left right fx baseline p,
   leftAfterDepth left right fx baseline p,
   rightAfterDepth left right fx baseline p)

/-- The per-index body of StereoFrame::checkStereoFrame: for a VALID right
rectified keypoint the left and right rectified rows must agree to within 3
pixels, the raw right keypoint must not be the origin, and the 3D point must
have strictly positive depth; for a non-VALID right rectified keypoint the 3D
point must have nonpositive depth. -/
def checkIdx (sf : StereoFrame) (i : Nat) : Bool :=
  let rkr := sf.right_keypoints_rectified.getD i default
  let lkr := sf.left_keypoints_rectified.getD i default
  let rkp := sf.right_frame.keypoints.getD i default
  let p3 := sf.keypoints_3d.getD i default
  if rkr.1 = KeypointStatus.VALID then
    decide (|rkr.2.y - lkr.2.y| ≤ 3) &&
    decide (|rkp.x| + |rkp.y| ≠ 0) &&
    decide (0 < p3.z)
  else
    decide (p3.z ≤ 0)

/-- StereoFrame::checkStereoFrame as a boolean: true when every CHECK passes,
false when the function would abort fatally. -/
def checkStereoFrame (sf : StereoFrame) : Bool :=
  let n := sf.left_frame.keypoints.length
  decide (sf.left_frame.scores.length = n) &&
  decide (sf.right_frame.keypoints.length = n) &&
  decide (sf.keypoints_3d.length = n) &&
  decide (sf.left_keypoints_rectified.length = n) &&
  decide (sf.right_keypoints_rectified.length = n) &&
  (List.range n).all (checkIdx sf)

/-- StereoFrame::setIsKeyframe: sets the stereo flag and both monocular
flags. -/
def setIsKeyframe (sf : StereoFrame) (is_kf : Bool) : StereoFrame :=
  { sf with
    is_keyframe := is_kf,
    left_frame := { sf.left_frame with isKeyframe := is_kf },
    right_frame := { sf.right_frame with isKeyframe := is_kf } }

/-- One emitted stereo measurement: (uL, uR, v) as in gtsam::StereoPoint2,
with uR an extended value because the source stores quiet_NaN when the right
coordinate is missing. -/
structure StereoPoint2 where
  uL : ℚ
  uR : DVal
  v : ℚ
deriving DecidableEq, Repr, Inhabited

/-- The loop of StereoFrame::getSmartStereoMeasurements over a list of
indices.  Entries with landmark id -1 are skipped; container accesses use
std::vector::at, whose range exception (modelled by none) aborts the whole
call.  The right container is only touched when use_stereo_measurements is
true, mirroring the short-circuit of the source condition. -/
def smartMeasAux (sf : StereoFrame) (use_stereo : Bool) :
    List Nat → Option (List (Int × StereoPoint2))
  | [] => some []
  | i :: rest =>
    match sf.left_frame.landmarks.get? i with
    | none => none
    | some lmk =>
      if lmk = -1 then smartMeasAux sf use_stereo rest
      else
        match sf.left_keypoints_rectified.get? i with
        | none => none
        | some lkr =>
          if use_stereo then
            match sf.right_keypoints_rectified.get? i with
            | none => none
            | some rkr =>
              (smartMeasAux sf use_stereo rest).map
                (fun tail =>
                  (lmk,
                   { uL := lkr.2.x
                     uR := if rkr.1 = KeypointStatus.VALID
                           then DVal.fin rkr.2.x else DVal.nan
                     v := lkr.2.y }) :: tail)
          else
            (smartMeasAux sf use_stereo rest).map
              (fun tail =>
                (lmk, { uL := lkr.2.x, uR := DVal.nan, v := lkr.2.y }) :: tail)

/-- StereoFrame::getSmartStereoMeasurements: aborts (none) unless the pair is
rectified and checkStereoFrame passes, then emits one measurement per landmark
index in input order. -/
def getSmartStereoMeasurements (sf : StereoFrame) (use_stereo : Bool) :
    Option (List (Int × StereoPoint2)) :=
  if sf.is_rectified = true then
    if checkStereoFrame sf = true then
      smartMeasAux sf use_stereo (List.range sf.left_frame.landmarks.length)
    else none
  else none

/-- StereoFrame::getSmartStereoMeasurements with the previous contents of the
caller-supplied output container made explicit: the source clears the
container on entry (CHECK_NOTNULL(...)->clear()) before any population, so
the result is built from the empty list and the previous contents never reach
the output. -/
def getSmartStereoMeasurementsInto (_prior : List (Int × StereoPoint2))
    (sf : StereoFrame) (use_stereo : Bool) : Option (List (Int × StereoPoint2)) :=
  let cleared : List (Int × StereoPoint2) := []
  match getSmartStereoMeasurements sf use_stereo with
  | none => none
  | some produced => some (cleared ++ produced)

/-- The observation emitted for one index, written as the specification
describes it (used to state the refinement theorem for claim C6). -/
def specObs (sf : StereoFrame) (use_stereo : Bool) (i : Nat) :
    Option (Int × StereoPoint2) :=
  let lmk := sf.left_frame.landmarks.getD i 0
  if lmk = -1 then none
  else
    let lkr := sf.left_keypoints_rectified.getD i default
    let rkr := sf.right_keypoints_rectified.getD i default
    some (lmk,
      { uL := lkr.2.x
        uR := if use_stereo = true ∧ rkr.1 = KeypointStatus.VALID
              then DVal.fin rkr.2.x else DVal.nan
        v := lkr.2.y })

/-- The measurement list as the specification describes it: indices in input
order, indices with landmark id -1 skipped. -/
def smartMeasSpec (sf : StereoFrame) (use_stereo : Bool) :
    List (Int × StereoPoint2) :=
  (List.range sf.left_frame.landmarks.length).filterMap (specObs sf use_stereo)

/-- Indexing a zipWith-style map of two lists of equal length. -/
theorem zipMap_getD {α β γ : Type} (f : α → β → γ) (da : α) (db : β) (dc : γ) :
    ∀ (xs : List α) (ys : List β) (i : Nat), xs.length = ys.length →
      i < xs.length →
      ((xs.zip ys).map (fun p => f p.1 p.2)).getD i dc
        = f (xs.getD i da) (ys.getD i db) := by
  intro xs
  induction xs with
  | nil => intro ys i _ hi; exact absurd hi (by simp)
  | cons x xs ih =>
    intro ys i hlen hi
    cases ys with
    | nil => simp at hlen
    | cons y ys =>
      cases i with
      | zero => rfl
      | succ n =>
        have h1 : xs.length = ys.length := by simpa using hlen
        have h2 : n < xs.length := by simpa using hi
        simpa using ih ys n h1 h2

/-- Indexing a map within bounds. -/
theorem map_getD {α β : Type} (f : α → β) (d : α) (dd : β) :
    ∀ (xs : List α) (i : Nat), i < xs.length →
      (xs.map f).getD i dd = f (xs.getD i d) := by
  intro xs
  induction xs with
  | nil => intro i hi; exact absurd hi (by simp)
  | cons x xs ih =>
    intro i hi
    cases i with
    | zero => rfl
    | succ n => simpa using ih n (by simpa using hi)

/-- A zip-map that projects to its (transformed) first component is the
identity on the first list when the lengths agree. -/
theorem zipMap_fst_id {α β : Type} (g : α → β → α) (hg : ∀ a b, g a b = a) :
    ∀ (xs : List α) (ys : List β), xs.length = ys.length →
      (xs.zip ys).map (fun p => g p.1 p.2) = xs := by
  intro xs
  induction xs with
  | nil => intro ys _; rfl
  | cons x xs ih =>
    intro ys h
    cases ys with
    | nil => simp at h
    | cons y ys =>
      have h1 : xs.length = ys.length := by simpa using h
      simp only [List.zip_cons_cons, List.map_cons, hg]
      exact congrArg (List.cons x) (by simpa [hg] using ih ys h1)

/-- Every branch of depthStep leaves the left entry untouched. -/
theorem depthStep_left_eq (fx_b min_d max_d : ℚ) (lk rk : StatusKeypointCV) :
    (depthStep fx_b min_d max_d lk rk).2.1 = lk := by
  simp only [depthStep]
  split
  · split
    · split <;> rfl
    · rfl
  · split <;> rfl

/-- Lengths agreeing, the depth results at index i are the step applied to
the entries at index i. -/
theorem depthResults_getD (left right : List StatusKeypointCV)
    (fx baseline : ℚ) (p : StereoMatchingParams) (i : Nat)
    (hlen : left.length = right.length) (hi : i < left.length) :
    (depthResults left right fx baseline p).getD i default
      = depthStep (fx * baseline) p.min_point_dist p.max_point_dist
          (left.getD i default) (right.getD i default) :=
  zipMap_getD _ default default default left right i hlen hi

/-- Length of the depth results list. -/
theorem depthResults_length (left right : List StatusKeypointCV)
    (fx baseline : ℚ) (p : StereoMatchingParams)
    (hlen : left.length = right.length) :
    (depthResults left right fx baseline p).length = left.length := by
  simp [depthResults, hlen]

/-- The emitted depth at index i is the first component of the step. -/
theorem getDepths_getD (left right : List StatusKeypointCV)
    (fx baseline : ℚ) (p : StereoMatchingParams) (i : Nat)
    (hlen : left.length = right.length) (hi : i < left.length) :
    (getDepths left right fx baseline p).getD i default
      = (depthStep (fx * baseline) p.min_point_dist p.max_point_dist
          (left.getD i default) (right.getD i default)).1 := by
  have hlr : i < (depthResults left right fx baseline p).length := by
    rw [depthResults_length left right fx baseline p hlen]; exact hi
  unfold getDepths
  rw [map_getD _ default _ _ i hlr, depthResults_getD left right fx baseline p i hlen hi]

/-- The right rectified entry after the call at index i is the third
component of the step. -/
theorem rightAfterDepth_getD (left right : List StatusKeypointCV)
    (fx baseline : ℚ) (p : StereoMatchingParams) (i : Nat)
    (hlen : left.length = right.length) (hi : i < left.length) :
    (rightAfterDepth left right fx baseline p).getD i default
      = (depthStep (fx * baseline) p.min_point_dist p.max_point_dist
          (left.getD i default) (right.getD i default)).2.2 := by
  have hlr : i < (depthResults left right fx baseline p).length := by
    rw [depthResults_length left right fx baseline p hlen]; exact hi
  unfold rightAfterDepth
  rw [map_getD _ default _ _ i hlr, depthResults_getD left right fx baseline p i hlen hi]

/-- The disparity the source computes at index i: left x minus right x of the
rectified keypoints. -/
def disparityAt (left right : List StatusKeypointCV) (i : Nat) : ℚ :=
  (left.getD i default).2.x - (right.getD i default).2.x

/-- The left rectified container is returned unchanged by
getDepthFromRectifiedMatches whenever the lengths agree. -/
theorem leftAfterDepth_eq (left right : List StatusKeypointCV)
    (fx baseline : ℚ) (p : StereoMatchingParams)
    (hlen : left.length = right.length) :
    leftAfterDepth left right fx baseline p = left := by
  unfold leftAfterDepth depthResults
  rw [List.map_map]
  exact zipMap_fst_id
    (fun a b => (depthStep (fx * baseline) p.min_point_dist p.max_point_dist a b).2.1)
    (fun a b => depthStep_left_eq _ _ _ a b) left right hlen

/-- C1: if checkStereoFrame passes (does not abort fatally), then at every
index the 3D point has strictly positive z exactly when the right rectified
keypoint status is VALID; contrapositively, a frame violating the sign
invariant at any index makes checkStereoFrame abort. -/
theorem checkStereoFrame_sign_invariant (sf : StereoFrame)
    (h : checkStereoFrame sf = true) (i : Nat)
    (hi : i < sf.left_frame.keypoints.length) :
    (0 < (sf.keypoints_3d.getD i default).z
      ↔ (sf.right_keypoints_rectified.getD i default).1 = KeypointStatus.VALID) := by
  unfold checkStereoFrame at h
  simp only [Bool.and_eq_true, List.all_eq_true, decide_eq_true_eq] at h
  have hidx := h.2 i (List.mem_range.mpr hi)
  simp only [checkIdx] at hidx
  by_cases hv : (sf.right_keypoints_rectified.getD i default).1 = KeypointStatus.VALID
  · rw [if_pos hv] at hidx
    simp only [Bool.and_eq_true, decide_eq_true_eq] at hidx
    exact ⟨fun _ => hv, fun _ => hidx.2⟩
  · rw [if_neg hv] at hidx
    simp only [decide_eq_true_eq] at hidx
    exact ⟨fun hz => absurd hz (not_lt.mpr hidx), fun hvv => absurd hvv hv⟩

/-- C2: at an index whose left rectified status is not VALID, depth
estimation overwrites the right status with exactly the left status and emits
depth 0. -/
theorem getDepth_status_propagation (left right : List StatusKeypointCV)
    (fx baseline : ℚ) (p : StereoMatchingParams) (i : Nat)
    (hlen : left.length = right.length) (hi : i < left.length)
    (hL : (left.getD i default).1 ≠ KeypointStatus.VALID) :
    ((rightAfterDepth left right fx baseline p).getD i default).1
        = (left.getD i default).1
    ∧ (getDepths left right fx baseline p).getD i default = DVal.fin 0 := by
  rw [rightAfterDepth_getD left right fx baseline p i hlen hi,
      getDepths_getD left right fx baseline p i hlen hi]
  simp only [depthStep]
  rw [if_neg (fun hc => hL hc.1), if_pos hL]
  exact ⟨rfl, rfl⟩

/-- C3: at an index where both rectified statuses are VALID and the disparity
is strictly negative, depth estimation sets the right status to NO_DEPTH
(keeping the pixel) and emits depth 0. -/
theorem getDepth_negative_disparity (left right : List StatusKeypointCV)
    (fx baseline : ℚ) (p : StereoMatchingParams) (i : Nat)
    (hlen : left.length = right.length) (hi : i < left.length)
    (hL : (left.getD i default).1 = KeypointStatus.VALID)
    (hR : (right.getD i default).1 = KeypointStatus.VALID)
    (hd : disparityAt left right i < 0) :
    (rightAfterDepth left right fx baseline p).getD i default
        = (KeypointStatus.NO_DEPTH, (right.getD i default).2)
    ∧ (getDepths left right fx baseline p).getD i default = DVal.fin 0 := by
  rw [rightAfterDepth_getD left right fx baseline p i hlen hi,
      getDepths_getD left right fx baseline p i hlen hi]
  simp only [depthStep]
  unfold disparityAt at hd
  rw [if_pos ⟨hL, hR⟩, if_neg (not_le.mpr hd)]
  exact ⟨rfl, rfl⟩

/-- C4: at an index where both rectified statuses are VALID and the disparity
is strictly positive, the computed depth is exactly fx * baseline /
disparity; if it falls outside the acceptance range the right status becomes
NO_DEPTH and depth 0 is emitted, otherwise the exact depth is emitted and the
right entry is unchanged (so its status stays VALID). -/
theorem getDepth_range_filter (left right : List StatusKeypointCV)
    (fx baseline : ℚ) (p : StereoMatchingParams) (i : Nat)
    (hlen : left.length = right.length) (hi : i < left.length)
    (hL : (left.getD i default).1 = KeypointStatus.VALID)
    (hR : (right.getD i default).1 = KeypointStatus.VALID)
    (hd : 0 < disparityAt left right i) :
    (fx * baseline / disparityAt left right i < p.min_point_dist
        ∨ p.max_point_dist < fx * baseline / disparityAt left right i →
      (rightAfterDepth left right fx baseline p).getD i default
          = (KeypointStatus.NO_DEPTH, (right.getD i default).2)
      ∧ (getDepths left right fx baseline p).getD i default = DVal.fin 0)
    ∧ (p.min_point_dist ≤ fx * baseline / disparityAt left right i
        ∧ fx * baseline / disparityAt left right i ≤ p.max_point_dist →
      (getDepths left right fx baseline p).getD i default
          = DVal.fin (fx * baseline / disparityAt left right i)
      ∧ (rightAfterDepth left right fx baseline p).getD i default
          = right.getD i default) := by
  rw [rightAfterDepth_getD left right fx baseline p i hlen hi,
      getDepths_getD left right fx baseline p i hlen hi]
  simp only [depthStep]
  have hd0 : 0 < (left.getD i default).2.x - (right.getD i default).2.x := by
    simpa [disparityAt] using hd
  rw [if_pos ⟨hL, hR⟩, if_pos (le_of_lt hd0)]
  have hdd : ddiv (fx * baseline) ((left.getD i default).2.x - (right.getD i default).2.x)
      = DVal.fin (fx * baseline / disparityAt left right i) := by
    unfold ddiv disparityAt
    rw [if_pos (ne_of_gt hd0)]
  rw [hdd]
  simp only [dltQ, dgtQ]
  constructor
  · intro hout
    rw [if_pos (by simpa [Bool.or_eq_true, decide_eq_true_eq] using hout)]
    exact ⟨rfl, rfl⟩
  · intro hin
    rw [if_neg (by simp [Bool.or_eq_true, decide_eq_true_eq, not_or, not_lt, hin.1, hin.2])]
    exact ⟨rfl, rfl⟩

/-- C5: at an index where both rectified statuses are VALID and the disparity
is exactly zero, the divide produces an IEEE infinity (fx * baseline being
nonzero), the range filter rejects it, the right status becomes NO_DEPTH and
depth 0 is emitted. -/
theorem getDepth_zero_disparity (left right : List StatusKeypointCV)
    (fx baseline : ℚ) (p : StereoMatchingParams) (i : Nat)
    (hlen : left.length = right.length) (hi : i < left.length)
    (hL : (left.getD i default).1 = KeypointStatus.VALID)
    (hR : (right.getD i default).1 = KeypointStatus.VALID)
    (hd : disparityAt left right i = 0) (hfb : fx * baseline ≠ 0) :
    (rightAfterDepth left right fx baseline p).getD i default
        = (KeypointStatus.NO_DEPTH, (right.getD i default).2)
    ∧ (getDepths left right fx baseline p).getD i default = DVal.fin 0 := by
  rw [rightAfterDepth_getD left right fx baseline p i hlen hi,
      getDepths_getD left right fx baseline p i hlen hi]
  simp only [depthStep]
  unfold disparityAt at hd
  rw [if_pos ⟨hL, hR⟩, if_pos (le_of_eq hd.symm)]
  rcases lt_or_gt_of_ne hfb with hneg | hpos
  · have hdd : ddiv (fx * baseline) ((left.getD i default).2.x - (right.getD i default).2.x)
        = DVal.negInf := by
      unfold ddiv
      rw [if_neg (not_ne_iff.mpr hd), if_neg (not_lt.mpr (le_of_lt hneg)), if_pos hneg]
    rw [hdd, if_pos (by simp [dltQ])]
    exact ⟨rfl, rfl⟩
  · have hdd : ddiv (fx * baseline) ((left.getD i default).2.x - (right.getD i default).2.x)
        = DVal.posInf := by
      unfold ddiv
      rw [if_neg (not_ne_iff.mpr hd), if_pos hpos]
    rw [hdd, if_pos (by simp [dltQ, dgtQ])]
    exact ⟨rfl, rfl⟩

/-- C10: at an index whose left rectified status is VALID but whose right
rectified status is not, depth estimation leaves the right entry (its failure
tag and pixel) unchanged and emits depth 0; moreover the whole left container
is never modified. -/
theorem getDepth_preserves_right_failure (left right : List StatusKeypointCV)
    (fx baseline : ℚ) (p : StereoMatchingParams) (i : Nat)
    (hlen : left.length = right.length) (hi : i < left.length)
    (hL : (left.getD i default).1 = KeypointStatus.VALID)
    (hR : (right.getD i default).1 ≠ KeypointStatus.VALID) :
    (rightAfterDepth left right fx baseline p).getD i default
        = right.getD i default
    ∧ (getDepths left right fx baseline p).getD i default = DVal.fin 0
    ∧ leftAfterDepth left right fx baseline p = left := by
  rw [rightAfterDepth_getD left right fx baseline p i hlen hi,
      getDepths_getD left right fx baseline p i hlen hi]
  refine ⟨?_, ?_, leftAfterDepth_eq left right fx baseline p hlen⟩
  · simp only [depthStep]
    rw [if_neg (fun hc => hR hc.2), if_neg (fun hc => hc hL)]
  · simp only [depthStep]
    rw [if_neg (fun hc => hR hc.2), if_neg (fun hc => hc hL)]

/-- If checkStereoFrame passes, the two rectified containers have the same
length as the left keypoint container. -/
theorem checkStereoFrame_lengths (sf : StereoFrame)
    (h : checkStereoFrame sf = true) :
    sf.left_keypoints_rectified.length = sf.left_frame.keypoints.length
    ∧ sf.right_keypoints_rectified.length = sf.left_frame.keypoints.length := by
  unfold checkStereoFrame at h
  simp only [Bool.and_eq_true, decide_eq_true_eq] at h
  exact ⟨h.1.1.2, h.1.2⟩

/-- On a list of in-bounds indices the measurement loop never aborts and
produces exactly the filterMap of the per-index observation. -/
theorem smartMeasAux_eq (sf : StereoFrame) (use_stereo : Bool) :
    ∀ idxs : List Nat,
      (∀ j ∈ idxs, j < sf.left_frame.landmarks.length
        ∧ j < sf.left_keypoints_rectified.length
        ∧ j < sf.right_keypoints_rectified.length) →
      smartMeasAux sf use_stereo idxs
        = some (idxs.filterMap (specObs sf use_stereo)) := by
  intro idxs
  induction idxs with
  | nil => intro _; rfl
  | cons i rest ih =>
    intro hb
    obtain ⟨h1, h2, h3⟩ := hb i (List.mem_cons_self i rest)
    have hrest := ih (fun j hj => hb j (List.mem_cons_of_mem i hj))
    have hlm : sf.left_frame.landmarks.get? i
        = some (sf.left_frame.landmarks.getD i 0) := by
      rw [List.get?_eq_getElem?, List.getElem?_eq_getElem h1,
          List.getD_eq_getElem?_getD, List.getElem?_eq_getElem h1]
      rfl
    have hlr : sf.left_keypoints_rectified.get? i
        = some (sf.left_keypoints_rectified.getD i default) := by
      rw [List.get?_eq_getElem?, List.getElem?_eq_getElem h2,
          List.getD_eq_getElem?_getD, List.getElem?_eq_getElem h2]
      rfl
    have hrr : sf.right_keypoints_rectified.get? i
        = some (sf.right_keypoints_rectified.getD i default) := by
      rw [List.get?_eq_getElem?, List.getElem?_eq_getElem h3,
          List.getD_eq_getElem?_getD, List.getElem?_eq_getElem h3]
      rfl
    by_cases hneg : sf.left_frame.landmarks.getD i 0 = -1
    · have hspec : specObs sf use_stereo i = none := by
        simp only [specObs, if_pos hneg]
      simp only [smartMeasAux, hlm, if_pos hneg, List.filterMap_cons, hspec]
      exact hrest
    · have hspec : specObs sf use_stereo i
          = some (sf.left_frame.landmarks.getD i 0,
              { uL := (sf.left_keypoints_rectified.getD i default).2.x
                uR := if use_stereo = true
                        ∧ (sf.right_keypoints_rectified.getD i default).1
                            = KeypointStatus.VALID
                      then DVal.fin (sf.right_keypoints_rectified.getD i default).2.x
                      else DVal.nan
                v := (sf.left_keypoints_rectified.getD i default).2.y }) := by
        simp only [specObs, if_neg hneg]
      by_cases hu : use_stereo = true
      · subst hu
        simp only [smartMeasAux, hlm, if_neg hneg, hlr, hrr, hrest,
                   Option.map_some', List.filterMap_cons, hspec,
                   eq_self_iff_true, true_and, if_true]
      · simp only [smartMeasAux, hlm, if_neg hneg, hlr, if_neg hu, hrest,
                   Option.map_some', List.filterMap_cons, hspec]
        have hnc : ¬(use_stereo = true
            ∧ (sf.right_keypoints_rectified.getD i default).1
                = KeypointStatus.VALID) :=
          fun hc => hu hc.1
        rw [if_neg hnc]

/-- C6: when the frame is rectified, the invariant checker passes and the
landmark container is aligned with the keypoint containers, the measurement
assembler emits exactly, in input index order, one observation per index with
landmark id other than -1, whose uL and v come from the left rectified pixel
and whose uR is the right rectified x exactly when stereo measurements are
requested and the right status is VALID, and NaN otherwise. -/
theorem getSmartStereoMeasurements_spec (sf : StereoFrame) (use_stereo : Bool)
    (hrect : sf.is_rectified = true)
    (hchk : checkStereoFrame sf = true)
    (hlmk : sf.left_frame.landmarks.length = sf.left_frame.keypoints.length) :
    getSmartStereoMeasurements sf use_stereo
      = some (smartMeasSpec sf use_stereo) := by
  unfold getSmartStereoMeasurements smartMeasSpec
  rw [if_pos hrect, if_pos hchk]
  apply smartMeasAux_eq
  intro j hj
  have hjn : j < sf.left_frame.landmarks.length := List.mem_range.mp hj
  obtain ⟨hll, hrl⟩ := checkStereoFrame_lengths sf hchk
  refine ⟨hjn, ?_, ?_⟩
  · rw [hll, ← hlmk]; exact hjn
  · rw [hrl, ← hlmk]; exact hjn

/-- C7: the measurement assembler aborts unless the pair is rectified, any
produced output implies the invariant checker ran and passed, and the result
never depends on the previous contents of the caller-supplied output
container (which is cleared on entry). -/
theorem getSmartStereoMeasurements_precondition (sf : StereoFrame)
    (use_stereo : Bool) :
    (sf.is_rectified = false → getSmartStereoMeasurements sf use_stereo = none)
    ∧ (∀ out, getSmartStereoMeasurements sf use_stereo = some out →
        sf.is_rectified = true ∧ checkStereoFrame sf = true)
    ∧ (∀ p1 p2 : List (Int × StereoPoint2),
        getSmartStereoMeasurementsInto p1 sf use_stereo
          = getSmartStereoMeasurementsInto p2 sf use_stereo) := by
  refine ⟨?_, ?_, ?_⟩
  · intro hf
    simp [getSmartStereoMeasurements, hf]
  · intro out hout
    unfold getSmartStereoMeasurements at hout
    by_cases h1 : sf.is_rectified = true
    · rw [if_pos h1] at hout
      by_cases h2 : checkStereoFrame sf = true
      · exact ⟨h1, h2⟩
      · rw [if_neg h2] at hout; cases hout
    · rw [if_neg h1] at hout; cases hout
  · intro p1 p2; rfl

/-- Any output of the measurement loop contains no landmark id -1. -/
theorem smartMeasAux_no_neg_one (sf : StereoFrame) (use_stereo : Bool) :
    ∀ (idxs : List Nat) (out : List (Int × StereoPoint2)),
      smartMeasAux sf use_stereo idxs = some out → ∀ m ∈ out, m.1 ≠ -1 := by
  intro idxs
  induction idxs with
  | nil =>
    intro out h m hm
    simp only [smartMeasAux, Option.some.injEq] at h
    subst h
    cases hm
  | cons i rest ih =>
    intro out h
    cases hlm : sf.left_frame.landmarks.get? i with
    | none =>
      simp only [smartMeasAux, hlm] at h
      exact Option.noConfusion h
    | some lmk =>
      simp only [smartMeasAux, hlm] at h
      by_cases hneg : lmk = -1
      · rw [if_pos hneg] at h
        exact ih out h
      · rw [if_neg hneg] at h
        cases hlr : sf.left_keypoints_rectified.get? i with
        | none =>
          simp only [hlr] at h
          exact Option.noConfusion h
        | some lkr =>
          simp only [hlr] at h
          by_cases hu : use_stereo = true
          · rw [if_pos hu] at h
            cases hrr : sf.right_keypoints_rectified.get? i with
            | none =>
              simp only [hrr] at h
              exact Option.noConfusion h
            | some rkr =>
              simp only [hrr] at h
              rw [Option.map_eq_some'] at h
              obtain ⟨tail, htail, hcons⟩ := h
              intro m hm
              rw [← hcons] at hm
              rcases List.mem_cons.mp hm with hm0 | hmtl
              · rw [hm0]; exact hneg
              · exact ih tail htail m hmtl
          · rw [if_neg hu] at h
            rw [Option.map_eq_some'] at h
            obtain ⟨tail, htail, hcons⟩ := h
            intro m hm
            rw [← hcons] at hm
            rcases List.mem_cons.mp hm with hm0 | hmtl
            · rw [hm0]; exact hneg
            · exact ih tail htail m hmtl

/-- C8: measurement assembly is deterministic over an unmutated record (two
runs produce the same result), and no emitted entry carries landmark id -1,
wherever such entries sit in the input. -/
theorem getSmartStereoMeasurements_idempotent_filter (sf : StereoFrame)
    (use_stereo : Bool) :
    getSmartStereoMeasurements sf use_stereo
        = getSmartStereoMeasurements sf use_stereo
    ∧ ∀ out, getSmartStereoMeasurements sf use_stereo = some out →
        ∀ m ∈ out, m.1 ≠ -1 := by
  refine ⟨rfl, ?_⟩
  intro out hout
  unfold getSmartStereoMeasurements at hout
  by_cases h1 : sf.is_rectified = true
  · rw [if_pos h1] at hout
    by_cases h2 : checkStereoFrame sf = true
    · rw [if_pos h2] at hout
      exact smartMeasAux_no_neg_one sf use_stereo _ out hout
    · rw [if_neg h2] at hout; cases hout
  · rw [if_neg h1] at hout; cases hout

/-- C9: a single setIsKeyframe call writes the same boolean to the stereo
record flag and to both monocular frame flags. -/
theorem setIsKeyframe_propagates (sf : StereoFrame) (is_kf : Bool) :
    (setIsKeyframe sf is_kf).is_keyframe = is_kf
    ∧ (setIsKeyframe sf is_kf).left_frame.isKeyframe = is_kf
    ∧ (setIsKeyframe sf is_kf).right_frame.isKeyframe = is_kf :=
  ⟨rfl, rfl, rfl⟩

/-- Concrete left rectified keypoints exercising every loop branch of the
depth estimator. -/
def exL : List StatusKeypointCV :=
  [(KeypointStatus.VALID, ⟨10, 7⟩),
   (KeypointStatus.NO_LEFT_RECT, ⟨30, 8⟩),
   (KeypointStatus.VALID, ⟨52, 9⟩),
   (KeypointStatus.VALID, ⟨20, 5⟩),
   (KeypointStatus.VALID, ⟨20, 5⟩)]

/-- Concrete right rectified keypoints matching exL index by index. -/
def exR : List StatusKeypointCV :=
  [(KeypointStatus.VALID, ⟨0, 7⟩),
   (KeypointStatus.FAILED_ARUN, ⟨29, 8⟩),
   (KeypointStatus.VALID, ⟨53, 9⟩),
   (KeypointStatus.VALID, ⟨20, 5⟩),
   (KeypointStatus.NO_RIGHT_RECT, ⟨18, 5⟩)]

/-- Concrete depth acceptance range. -/
def exP : StereoMatchingParams := ⟨1/2, 10⟩

/-- Concrete stereo frame satisfying every checkStereoFrame invariant. -/
def exSF : StereoFrame :=
  { left_frame :=
      { keypoints := [⟨10, 7⟩, ⟨30, 8⟩]
        scores := [1, 1]
        landmarks := [5, -1]
        isKeyframe := false }
    right_frame :=
      { keypoints := [⟨4, 7⟩, ⟨29, 8⟩]
        scores := [1, 1]
        landmarks := [5, -1]
        isKeyframe := false }
    keypoints_3d := [⟨0, 0, 2⟩, ⟨0, 0, 0⟩]
    left_keypoints_rectified :=
      [(KeypointStatus.VALID, ⟨10, 7⟩), (KeypointStatus.NO_LEFT_RECT, ⟨30, 8⟩)]
    right_keypoints_rectified :=
      [(KeypointStatus.VALID, ⟨4, 7⟩), (KeypointStatus.NO_LEFT_RECT, ⟨29, 8⟩)]
    is_keyframe := false
    is_rectified := true }

/-- The same frame with the rectification flag cleared. -/
def exSFraw : StereoFrame := { exSF with is_rectified := false }

/-- The per-index check passes at index 0 of the concrete frame. -/
theorem exSF_checkIdx0 : checkIdx exSF 0 = true := by
  simp only [checkIdx, exSF, List.getD_cons_zero]
  norm_num

/-- The per-index check passes at index 1 of the concrete frame. -/
theorem exSF_checkIdx1 : checkIdx exSF 1 = true := by
  simp only [checkIdx, exSF, List.getD_cons_zero, List.getD_cons_succ]
  rw [if_neg (by decide)]
  norm_num

/-- The whole invariant checker passes on the concrete frame. -/
theorem exSF_check : checkStereoFrame exSF = true := by
  have hr : List.range exSF.left_frame.keypoints.length = [0, 1] := rfl
  simp only [checkStereoFrame, hr, List.all_cons, List.all_nil,
             exSF_checkIdx0, exSF_checkIdx1, Bool.and_true]
  norm_num [exSF]

/-- The measurement assembler on the concrete frame emits exactly the
observation of landmark 5. -/
theorem exSF_gsm : getSmartStereoMeasurements exSF true
    = some [((5 : Int), ({ uL := 10, uR := DVal.fin 4, v := 7 } : StereoPoint2))] := by
  rw [getSmartStereoMeasurements, if_pos (show exSF.is_rectified = true from rfl),
      if_pos exSF_check]
  have hr : List.range exSF.left_frame.landmarks.length = [0, 1] := rfl
  rw [hr]
  simp [smartMeasAux, exSF]

/-- Witness for C1 at index 0 of the concrete frame. -/
theorem checkStereoFrame_sign_invariant_witness :
    (0 < (exSF.keypoints_3d.getD 0 default).z
      ↔ (exSF.right_keypoints_rectified.getD 0 default).1 = KeypointStatus.VALID) :=
  checkStereoFrame_sign_invariant exSF exSF_check 0 (by decide)

/-- Witness for C2 at index 1 (left status NO_LEFT_RECT). -/
theorem getDepth_status_propagation_witness :
    ((rightAfterDepth exL exR 10 1 exP).getD 1 default).1 = (exL.getD 1 default).1
    ∧ (getDepths exL exR 10 1 exP).getD 1 default = DVal.fin 0 :=
  getDepth_status_propagation exL exR 10 1 exP 1 (by decide) (by decide) (by decide)

/-- Witness for C3 at index 2 (disparity 52 - 53 = -1). -/
theorem getDepth_negative_disparity_witness :
    (rightAfterDepth exL exR 10 1 exP).getD 2 default
        = (KeypointStatus.NO_DEPTH, (exR.getD 2 default).2)
    ∧ (getDepths exL exR 10 1 exP).getD 2 default = DVal.fin 0 :=
  getDepth_negative_disparity exL exR 10 1 exP 2 (by decide) (by decide)
    (by decide) (by decide)
    (by norm_num [disparityAt, exL, exR, List.getD_cons_zero, List.getD_cons_succ])

/-- Witness for C4 at index 0 (disparity 10, depth 10 * 1 / 10 = 1 inside
the range): the exact depth is emitted and the right entry is unchanged. -/
theorem getDepth_range_filter_witness :
    (getDepths exL exR 10 1 exP).getD 0 default
        = DVal.fin (10 * 1 / disparityAt exL exR 0)
    ∧ (rightAfterDepth exL exR 10 1 exP).getD 0 default = exR.getD 0 default :=
  (getDepth_range_filter exL exR 10 1 exP 0 (by decide) (by decide) (by decide)
      (by decide)
      (by norm_num [disparityAt, exL, exR, List.getD_cons_zero])).2
    ⟨by norm_num [disparityAt, exL, exR, exP, List.getD_cons_zero],
     by norm_num [disparityAt, exL, exR, exP, List.getD_cons_zero]⟩

/-- Witness for C5 at index 3 (disparity 20 - 20 = 0 with fx * baseline
nonzero). -/
theorem getDepth_zero_disparity_witness :
    (rightAfterDepth exL exR 10 1 exP).getD 3 default
        = (KeypointStatus.NO_DEPTH, (exR.getD 3 default).2)
    ∧ (getDepths exL exR 10 1 exP).getD 3 default = DVal.fin 0 :=
  getDepth_zero_disparity exL exR 10 1 exP 3 (by decide) (by decide)
    (by decide) (by decide)
    (by norm_num [disparityAt, exL, exR, List.getD_cons_zero, List.getD_cons_succ])
    (by norm_num)

/-- Witness for C6 on the concrete frame. -/
theorem getSmartStereoMeasurements_spec_witness :
    getSmartStereoMeasurements exSF true = some (smartMeasSpec exSF true) :=
  getSmartStereoMeasurements_spec exSF true rfl exSF_check rfl

/-- Witness for C7: the unrectified frame makes the assembler abort. -/
theorem getSmartStereoMeasurements_precondition_witness :
    getSmartStereoMeasurements exSFraw true = none :=
  (getSmartStereoMeasurements_precondition exSFraw true).1 rfl

/-- Witness for C8: the single emitted entry of the concrete frame does not
carry landmark id -1. -/
theorem getSmartStereoMeasurements_idempotent_filter_witness :
    ((5 : Int), ({ uL := 10, uR := DVal.fin 4, v := 7 } : StereoPoint2)).1 ≠ -1 :=
  (getSmartStereoMeasurements_idempotent_filter exSF true).2
    [((5 : Int), ({ uL := 10, uR := DVal.fin 4, v := 7 } : StereoPoint2))]
    exSF_gsm
    ((5 : Int), ({ uL := 10, uR := DVal.fin 4, v := 7 } : StereoPoint2))
    (by simp)

/-- Witness for C10 at index 4 (left VALID, right NO_RIGHT_RECT preserved). -/
theorem getDepth_preserves_right_failure_witness :
    (rightAfterDepth exL exR 10 1 exP).getD 4 default = exR.getD 4 default
    ∧ (getDepths exL exR 10 1 exP).getD 4 default = DVal.fin 0
    ∧ leftAfterDepth exL exR 10 1 exP = exL :=
  getDepth_preserves_right_failure exL exR 10 1 exP 4 (by decide) (by decide)
    (by decide) (by decide)

end VIO
